import Mathlib

/-!
Verification of the matching-and-caching resolution engine of the
rym-to-spotify repository (source files txt-to-spotify.py and
cache_manager.py), as a shallow embedding in Lean.

Modelling conventions used throughout:
* Python strings are Lean String; Python lower() is modelled with the
  ASCII Char.toLower (every concrete string appearing in a theorem below
  is ASCII) and Python strip() drops the whitespace at both ends.
* Python integers are Int or Nat; unix timestamps are Int.
* Loops with an early break are modelled as structural recursion; loops
  whose bound is data-dependent carry an explicit fuel argument that is
  always instantiated large enough to be inert (noted at each use).
* The remote API is an explicit oracle argument (result lists, error
  schedules), so that each code path is a total function of its inputs.
-/

namespace RymSpotify

/-- Python s.lower(), restricted to ASCII as noted in the file header.
Implemented over the character list so that the kernel can evaluate it
(the core String.toLower hides a well-founded recursion). -/
def pyLower (s : String) : String := String.mk (s.toList.map Char.toLower)

/-- Python s.strip(): drop whitespace from both ends. -/
def pyStrip (s : String) : String :=
  String.mk (((s.toList.dropWhile Char.isWhitespace).reverse.dropWhile
    Char.isWhitespace).reverse)

/-- Separator join, as str.join; implemented recursively so that the
kernel can evaluate it. -/
def joinSep (sep : String) : List String → String
  | [] => ""
  | [x] => x
  | x :: y :: xs => x ++ sep ++ joinSep sep (y :: xs)

/-! ## Name normalizer (txt-to-spotify.py, extract_western_name and
get_search_variants, lines 143-159) -/

/-- Scan for the first occurrence of the character close, failing on a
newline first (the regex dot does not match a newline).  Returns the
content before close and the remainder after it.  This is the lazy
body match of the patterns like bracket-dot-star-lazy-bracket used by
extract_western_name. -/
def grabUntil (close : Char) : List Char → Option (List Char × List Char)
  | [] => none
  | c :: rest =>
    if c = close then some ([], rest)
    else if c = '\n' then none
    else (grabUntil close rest).map (fun p => (c :: p.1, p.2))

/-- Leftmost-shortest match of an opening delimiter followed by a body and
a closing delimiter: the group content of re.search on the bracket or
parenthesis pattern. -/
def findSub (opn close : Char) : List Char → Option (List Char)
  | [] => none
  | c :: rest =>
    if c = opn then
      match grabUntil close rest with
      | some p => some p.1
      | none => findSub opn close rest
    else findSub opn close rest

/-- txt-to-spotify.py extract_western_name: content of the first square
bracket pair if any, else of the first parenthesis pair, else the text
itself; the group is stripped. -/
def extract_western_name (text : String) : String :=
  match findSub '[' ']' text.toList with
  | some c => pyStrip (String.mk c)
  | none =>
    match findSub '(' ')' text.toList with
    | some c => pyStrip (String.mk c)
    | none => text

/-- One pass of re.sub removing every leftmost-shortest bracket span or
parenthesis span.  The fuel is instantiated with the length of the input
plus one, which always suffices since every step consumes at least one
character. -/
def removeSpansF : Nat → List Char → List Char
  | 0, l => l
  | _ + 1, [] => []
  | fuel + 1, c :: rest =>
    if c = '[' then
      match grabUntil ']' rest with
      | some p => removeSpansF fuel p.2
      | none => c :: removeSpansF fuel rest
    else if c = '(' then
      match grabUntil ')' rest with
      | some p => removeSpansF fuel p.2
      | none => c :: removeSpansF fuel rest
    else c :: removeSpansF fuel rest

/-- The bracket-stripped clean form of a name. -/
def cleanName (name : String) : String :=
  pyStrip (String.mk (removeSpansF (name.toList.length + 1) name.toList))

/-- Python dict.fromkeys de-duplication: keep the first occurrence of
each element, preserving order. -/
def dedupKeepFirst (seen : List String) : List String → List String
  | [] => []
  | x :: xs =>
    if x ∈ seen then dedupKeepFirst seen xs
    else x :: dedupKeepFirst (x :: seen) xs

/-- txt-to-spotify.py get_search_variants. -/
def get_search_variants (name : String) : List String :=
  if name = "" then []
  else
    let vs0 := [name]
    let western := extract_western_name name
    let vs1 := if western ≠ name then vs0 ++ [western] else vs0
    let clean := cleanName name
    let vs2 := if clean ≠ "" ∧ clean ∉ vs1 then vs1 ++ [clean] else vs1
    dedupKeepFirst [] vs2

/-! ## difflib.SequenceMatcher ratio

The source compares names with difflib.SequenceMatcher(None, a, b).ratio().
The embedding below follows difflib: find the longest matching block of
the two character sequences (earliest in a, then earliest in b, by the
ascending dynamic-programming scan), recurse on the pieces to the left
and to the right of the block, and return twice the total matched length
divided by the sum of the lengths.  The autojunk heuristic of difflib
only activates when the second string has at least 200 characters, which
never happens for the names compared here, so it is not modelled; with
no junk the block-extension loops of find_longest_match are no-ops and
are omitted. -/

/-- One row of the difflib dynamic program: length of the run of matches
ending at position j of b against the current character of a, given the
previous row. -/
def dlRow (b : List Char) (c : Char) (blo bhi : Nat) (row : Nat → Nat) : Nat → Nat :=
  fun j =>
    if (b.get? j == some c) && decide (blo ≤ j) && decide (j < bhi) then
      (if j = 0 then 0 else row (j - 1)) + 1
    else 0

/-- Best block so far: start in a, start in b, size. -/
structure DlBest where
  ai : Nat
  bj : Nat
  size : Nat
deriving DecidableEq

/-- Update the best block with the runs of the current row, scanning the
positions of b ascending and replacing only on a strictly larger size,
exactly as difflib does. -/
def dlScan (i : Nat) (row : Nat → Nat) (js : List Nat) (best : DlBest) : DlBest :=
  js.foldl
    (fun bst j =>
      let k := row j
      if bst.size < k then ⟨i + 1 - k, j + 1 - k, k⟩ else bst)
    best

/-- The outer loop of difflib find_longest_match over the positions of a. -/
def dlLoop (a b : List Char) (blo bhi : Nat) :
    List Nat → (Nat → Nat) → DlBest → DlBest
  | [], _, best => best
  | i :: rest, row, best =>
    match a.get? i with
    | none => dlLoop a b blo bhi rest row best
    | some c =>
      let row2 := dlRow b c blo bhi row
      let js := (List.range b.length).filter
        (fun j => (b.get? j == some c) && decide (blo ≤ j) && decide (j < bhi))
      dlLoop a b blo bhi rest row2 (dlScan i row2 js best)

/-- difflib find_longest_match on the index ranges [alo, ahi) and [blo, bhi). -/
def find_longest_match (a b : List Char) (alo ahi blo bhi : Nat) : DlBest :=
  dlLoop a b blo bhi ((List.range ahi).drop alo) (fun _ => 0) ⟨alo, blo, 0⟩

/-- Total size of all matching blocks: the recursion of
get_matching_blocks, keeping only the sum of the sizes.  The fuel is
instantiated with the sum of the two lengths plus one, which bounds the
recursion depth. -/
def dlTotal (a b : List Char) : Nat → Nat → Nat → Nat → Nat → Nat
  | 0, _, _, _, _ => 0
  | fuel + 1, alo, ahi, blo, bhi =>
    let m := find_longest_match a b alo ahi blo bhi
    if m.size = 0 then 0
    else
      dlTotal a b fuel alo m.ai blo m.bj + m.size +
        dlTotal a b fuel (m.ai + m.size) ahi (m.bj + m.size) bhi

/-- difflib SequenceMatcher(None, a, b).ratio() as a rational number,
built with mkRat so that the kernel can evaluate comparisons against the
thresholds (the float ratio of difflib is exactly this rational for the
short strings involved).  Both strings empty gives 1, as in difflib. -/
def ratio (a b : String) : ℚ :=
  let la := a.toList.length
  let lb := b.toList.length
  if la + lb = 0 then mkRat 1 1
  else mkRat (2 * (dlTotal a.toList b.toList (la + lb + 1) 0 la 0 lb)) (la + lb)

/-! ## Song resolver (txt-to-spotify.py search_song, lines 238-338)

The three stages are modelled on the API path (cache miss).  Each stage
receives the candidate list its Spotify query returned; a query that
raised is equivalent, through the try-except-pass of the source, to a
stage that accepts nothing. -/

/-- A track object as returned by the Spotify search endpoint, keeping
the fields the resolver reads. -/
structure TrackObj where
  id : String
  name : String
  albumName : String
  artists : List String
deriving DecidableEq

/-- The found-track record built by search_song before result handling. -/
structure FoundTrack where
  id : String
  name : String
  album : String
deriving DecidableEq

def TrackObj.toFound (t : TrackObj) : FoundTrack := ⟨t.id, t.name, t.albumName⟩

/-- Python substring containment a in b. -/
def pyIn (a b : String) : Bool :=
  b.toList.tails.any (fun suf => a.toList.isPrefixOf suf)

/-- Stage 1 of search_song: track+album+artist scoped query with limit 1;
the first returned item is taken with no further check. -/
def songStage1 (results : List TrackObj) : Option FoundTrack :=
  results.head?.map TrackObj.toFound

/-- Stage 2 of search_song: track+artist scoped query with limit 5; when
an album name was supplied the candidate album must have similarity
above 0.8, otherwise the first candidate is taken. -/
def songStage2 (primaryAlbumV : Option String) : List TrackObj → Option FoundTrack
  | [] => none
  | t :: rest =>
    match primaryAlbumV with
    | some av =>
      if ratio (pyLower av) (pyLower t.albumName) > mkRat 4 5 then some t.toFound
      else songStage2 (some av) rest
    | none => some t.toFound

/-- The artist acceptance test of stage 3: substring either direction or
similarity above 0.8 against any candidate artist. -/
def artistMatches (artistV : String) (artists : List String) : Bool :=
  artists.any (fun ta =>
    let tal := pyLower ta
    let avl := pyLower artistV
    pyIn avl tal || pyIn tal avl || decide (ratio avl tal > mkRat 4 5))

/-- The album acceptance test of stage 3: only fails when an album was
supplied and its similarity is at most 0.7. -/
def stage3AlbumOk (primaryAlbumV : Option String) (t : TrackObj) : Bool :=
  match primaryAlbumV with
  | some av => decide (¬ ratio (pyLower av) (pyLower t.albumName) ≤ mkRat 7 10)
  | none => true

/-- Stage 3 of search_song: free-text query with limit 5; song similarity
at least 0.8, artist match, and the album test above. -/
def songStage3 (songV artistV : String) (primaryAlbumV : Option String) :
    List TrackObj → Option FoundTrack
  | [] => none
  | t :: rest =>
    if decide (ratio (pyLower songV) (pyLower t.name) ≥ mkRat 4 5) &&
        artistMatches artistV t.artists && stage3AlbumOk primaryAlbumV t then
      some t.toFound
    else songStage3 songV artistV primaryAlbumV rest

/-- The primary album variant of search_song: the head of the variant
list when an album name was given and non-empty, as in the source where
album_variants is the one-element slice of get_search_variants. -/
def primaryAlbumOf (albumName : Option String) : Option String :=
  match albumName with
  | none => none
  | some a => if a = "" then none else ((get_search_variants a).take 1).head?

/-- search_song on the API path (cache miss): staged resolution with
first acceptance winning; the Bool of the result is the fuzzy_matched
flag, set only by stage 3.  r1, r2, r3 are the candidate lists returned
by the three queries. -/
def search_song_resolve (songName : String) (albumName : Option String)
    (artistName : String) (r1 r2 r3 : List TrackObj) :
    Option (FoundTrack × Bool) :=
  match ((get_search_variants songName).take 2).head?,
      ((get_search_variants artistName).take 1).head? with
  | some songV, some artistV =>
    let albumV := primaryAlbumOf albumName
    let s1 := match albumV with
      | some _ => songStage1 r1
      | none => none
    match s1 with
    | some f => some (f, false)
    | none =>
      match songStage2 albumV r2 with
      | some f => some (f, false)
      | none => (songStage3 songV artistV albumV r3).map (fun f => (f, true))
  | _, _ => none

/-! ## JSON values, json.dumps with sort_keys, json.loads

cache_manager.py stores results as text: either the not-found marker,
a JSON document produced by json.dumps(..., sort_keys=True), or a plain
string.  The embedding models JSON values, the dumper (default
separators, ensure_ascii escaping of characters outside 32..126, keys
sorted) and a strict recursive-descent loader.  JSON floats are not
modelled (the program only stores strings and integers); a numeric token
with a fraction or exponent part makes the loader fail, which for
check_cache only means falling back to the raw string. -/

inductive Json where
  | null
  | bool (b : Bool)
  | num (n : Int)
  | str (s : String)
  | arr (items : List Json)
  | obj (fields : List (String × Json))

/-- Python string comparison: lexicographic by code point. -/
def charListLt : List Char → List Char → Bool
  | [], [] => false
  | [], _ :: _ => true
  | _ :: _, [] => false
  | a :: as, b :: bs => if a < b then true else if b < a then false else charListLt as bs

def strLt (a b : String) : Bool := charListLt a.toList b.toList

/-- Insertion sort of key-value pairs by key, as sort_keys=True orders
object keys (keys of a Python dict are distinct, so any total order by
key produces the same result). -/
def insortPair {α : Type} (x : String × α) : List (String × α) → List (String × α)
  | [] => [x]
  | y :: ys => if strLt x.1 y.1 || x.1 == y.1 then x :: y :: ys else y :: insortPair x ys

def sortPairs {α : Type} : List (String × α) → List (String × α)
  | [] => []
  | x :: xs => insortPair x (sortPairs xs)

def hexLowerDigit (n : Nat) : Char :=
  if n < 10 then Char.ofNat (48 + n) else Char.ofNat (87 + n)

/-- A backslash escape of one character. -/
def escPair (e : Char) : List Char := ['\\', e]

/-- JSON string escaping with ensure_ascii, as json.dumps performs it.
Characters above the basic multilingual plane would need surrogate
pairs; none of the strings handled in this development leave ASCII. -/
def escChar (c : Char) : List Char :=
  if c = '"' ∨ c = '\\' then escPair c
  else if c = '\n' then escPair 'n'
  else if c = '\t' then escPair 't'
  else if c = '\r' then escPair 'r'
  else if c = Char.ofNat 8 then escPair 'b'
  else if c = Char.ofNat 12 then escPair 'f'
  else if c.toNat < 32 ∨ c.toNat > 126 then
    '\\' :: 'u' ::
      [hexLowerDigit (c.toNat / 4096 % 16), hexLowerDigit (c.toNat / 256 % 16),
        hexLowerDigit (c.toNat / 16 % 16), hexLowerDigit (c.toNat % 16)]
  else [c]

def dumpStr (s : String) : String :=
  "\"" ++ String.mk (s.toList.map escChar).flatten ++ "\""

mutual

/-- Structural size of a JSON value, bounding the nesting depth for the
fuel of the dumper. -/
def jsonSize : Json → Nat
  | .arr items => 1 + jsonSizeList items
  | .obj fields => 1 + jsonSizeFields fields
  | _ => 1

def jsonSizeList : List Json → Nat
  | [] => 0
  | v :: vs => 1 + jsonSize v + jsonSizeList vs

def jsonSizeFields : List (String × Json) → Nat
  | [] => 0
  | kv :: rest => 1 + jsonSize kv.2 + jsonSizeFields rest

end

/-- json.dumps(v, sort_keys=True) with the default separators.  The fuel
argument bounds the nesting depth; dumps below instantiates it with
sizeOf of the value, which always suffices. -/
def dumpsF : Nat → Json → String
  | 0, _ => ""
  | fuel + 1, v =>
    match v with
    | .null => "null"
    | .bool true => "true"
    | .bool false => "false"
    | .num n => toString n
    | .str s => dumpStr s
    | .arr items => "[" ++ joinSep ", " (items.map (dumpsF fuel)) ++ "]"
    | .obj fields =>
      "\x7b" ++
        joinSep ", "
          ((sortPairs fields).map (fun kv => dumpStr kv.1 ++ ": " ++ dumpsF fuel kv.2)) ++
        "\x7d"

def dumps (v : Json) : String := dumpsF (jsonSize v) v

def jsonWsChar (c : Char) : Bool := c = ' ' || c = '\t' || c = '\n' || c = '\r'

def skipWs : List Char → List Char
  | [] => []
  | c :: rest => if jsonWsChar c then skipWs rest else c :: rest

def hexVal (c : Char) : Option Nat :=
  if '0' ≤ c ∧ c ≤ '9' then some (c.toNat - 48)
  else if 'a' ≤ c ∧ c ≤ 'f' then some (c.toNat - 87)
  else if 'A' ≤ c ∧ c ≤ 'F' then some (c.toNat - 55)
  else none

/-- Body of a JSON string literal, after the opening quote. -/
def parseStrBody : Nat → List Char → Option (List Char × List Char)
  | 0, _ => none
  | fuel + 1, l =>
    match l with
    | [] => none
    | c :: rest =>
      if c = '"' then some ([], rest)
      else if c = '\\' then
        match rest with
        | [] => none
        | e :: rest2 =>
          if e = '"' ∨ e = '\\' ∨ e = '/' then
            (parseStrBody fuel rest2).map (fun p => (e :: p.1, p.2))
          else if e = 'n' then (parseStrBody fuel rest2).map (fun p => ('\n' :: p.1, p.2))
          else if e = 't' then (parseStrBody fuel rest2).map (fun p => ('\t' :: p.1, p.2))
          else if e = 'r' then (parseStrBody fuel rest2).map (fun p => ('\r' :: p.1, p.2))
          else if e = 'b' then (parseStrBody fuel rest2).map (fun p => (Char.ofNat 8 :: p.1, p.2))
          else if e = 'f' then (parseStrBody fuel rest2).map (fun p => (Char.ofNat 12 :: p.1, p.2))
          else if e = 'u' then
            match rest2 with
            | h1 :: h2 :: h3 :: h4 :: rest3 =>
              match hexVal h1, hexVal h2, hexVal h3, hexVal h4 with
              | some a, some b, some c2, some d =>
                (parseStrBody fuel rest3).map
                  (fun p => (Char.ofNat (a * 4096 + b * 256 + c2 * 16 + d) :: p.1, p.2))
              | _, _, _, _ => none
            | _ => none
          else none
      else if c.toNat < 32 then none
      else (parseStrBody fuel rest).map (fun p => (c :: p.1, p.2))

/-- A JSON integer token; fails on a fraction or exponent part since
floats are not modelled. -/
def parseIntTok (l : List Char) : Option (Int × List Char) :=
  let p := match l with
    | '-' :: r => (true, r)
    | _ => (false, l)
  let ds := p.2.takeWhile (fun c => decide ('0' ≤ c) && decide (c ≤ '9'))
  let rest := p.2.drop ds.length
  if ds.isEmpty then none
  else if ds.length > 1 ∧ ds.head? = some '0' then none
  else
    match rest.head? with
    | some c =>
      if c = '.' ∨ c = 'e' ∨ c = 'E' then none
      else some (intOfDigits p.1 ds, rest)
    | none => some (intOfDigits p.1 ds, rest)
where
  intOfDigits (neg : Bool) (ds : List Char) : Int :=
    let n : Nat := ds.foldl (fun acc c => acc * 10 + (c.toNat - 48)) 0
    if neg then -(n : Int) else (n : Int)

mutual

/-- Strict JSON value at the head of the input. -/
def parseVal : Nat → List Char → Option (Json × List Char)
  | 0, _ => none
  | fuel + 1, l =>
    match skipWs l with
    | [] => none
    | c :: rest =>
      if c = 'n' then
        match rest with
        | 'u' :: 'l' :: 'l' :: r => some (.null, r)
        | _ => none
      else if c = 't' then
        match rest with
        | 'r' :: 'u' :: 'e' :: r => some (.bool true, r)
        | _ => none
      else if c = 'f' then
        match rest with
        | 'a' :: 'l' :: 's' :: 'e' :: r => some (.bool false, r)
        | _ => none
      else if c = '"' then
        (parseStrBody (rest.length + 1) rest).map (fun p => (.str (String.mk p.1), p.2))
      else if c = '[' then
        match skipWs rest with
        | ']' :: r => some (.arr [], r)
        | r2 => (parseElems fuel r2).map (fun p => (.arr p.1, p.2))
      else if c = Char.ofNat 123 then
        match skipWs rest with
        | r2 =>
          if r2.head? = some (Char.ofNat 125) then some (.obj [], r2.tail)
          else (parseFields fuel r2).map (fun p => (.obj p.1, p.2))
      else (parseIntTok (c :: rest)).map (fun p => (.num p.1, p.2))

/-- Elements of a non-empty JSON array, up to and including the closing
bracket. -/
def parseElems : Nat → List Char → Option (List Json × List Char)
  | 0, _ => none
  | fuel + 1, l =>
    match parseVal fuel l with
    | none => none
    | some (v, r) =>
      match skipWs r with
      | ',' :: r2 => (parseElems fuel r2).map (fun p => (v :: p.1, p.2))
      | ']' :: r2 => some ([v], r2)
      | _ => none

/-- Fields of a non-empty JSON object, up to and including the closing
brace. -/
def parseFields : Nat → List Char → Option (List (String × Json) × List Char)
  | 0, _ => none
  | fuel + 1, l =>
    match skipWs l with
    | '"' :: r =>
      match parseStrBody (r.length + 1) r with
      | none => none
      | some (k, r2) =>
        match skipWs r2 with
        | ':' :: r3 =>
          match parseVal fuel r3 with
          | none => none
          | some (v, r4) =>
            match skipWs r4 with
            | c :: r5 =>
              if c = ',' then (parseFields fuel r5).map (fun p => ((String.mk k, v) :: p.1, p.2))
              else if c = Char.ofNat 125 then some ([(String.mk k, v)], r5)
              else none
            | [] => none
        | _ => none
    | _ => none

end

/-- json.loads on a whole document: one value with only whitespace
around it. -/
def json_loads (s : String) : Option Json :=
  match parseVal (2 * s.toList.length + 8) s.toList with
  | some (v, rest) => if (skipWs rest).isEmpty then some v else none
  | none => none

/-! ## Persistent cache (cache_manager.py) -/

def NOT_FOUND_MARKER : String := "__NOT_FOUND__"

def ALBUM_DETAILS_TYPE : String := "album_full_details"

/-- 6 * 30 * 24 * 60 * 60 seconds. -/
def CACHE_EXPIRY_SECONDS : Int := 6 * 30 * 24 * 60 * 60

/-- A query-parameter value.  Every call site of the cache in
txt-to-spotify.py passes strings or None; the integer constructor covers
the stringified-scalar branch of the normalizer.  The list branch of the
normalizer is unreachable from the call sites and is not modelled. -/
inductive PVal where
  | str (s : String)
  | pnone
  | int (n : Int)
deriving DecidableEq

/-- Normalized rendering of one parameter value inside
_generate_query_hash: strings lower-cased and stripped, None becomes
the token none, other scalars stringified then lower-cased and
stripped. -/
def pvalNorm : PVal → String
  | .str v => pyStrip (pyLower v)
  | .pnone => "none"
  | .int n => pyStrip (pyLower (toString n))

/-- Python str() of a parameter value, used unnormalized by the
album-details hash branch. -/
def pvalPyStr : PVal → String
  | .str v => v
  | .pnone => "None"
  | .int n => toString n

/-- cache_manager.py _generate_query_hash.  The SHA-256 hex digest is
modelled by its preimage string: the digest function is fixed and
deterministic, so equal preimages give equal digests, and distinct
preimages give distinct digests under the collision-resistance the spec
itself requires of the hash. -/
def generate_query_hash (query_type : String) (params : List (String × PVal)) : String :=
  if query_type = ALBUM_DETAILS_TYPE ∧ params.any (fun kv => kv.1 = "album_id") then
    pyStrip (pyLower query_type) ++ "|album_id:" ++
      (match params.find? (fun kv => kv.1 = "album_id") with
        | some kv => pvalPyStr kv.2
        | none => "")
  else
    pyStrip (pyLower query_type) ++ "|" ++
      joinSep "|"
        ((sortPairs params).map
          (fun kv => pyStrip (pyLower kv.1) ++ ":" ++ pvalNorm kv.2))

/-- The cache table as a map from query hash to the stored result text
and write timestamp (the query_type and query_params columns are stored
but never read back, so they are not modelled). -/
def Store : Type := String → Option (String × Int)

def emptyStore : Store := fun _ => none

/-- The hit branch of check_cache: the not-found marker maps to itself,
or to an empty list for the album-details type; anything else is decoded
as JSON, falling back to the raw string. -/
def decodeStored (query_type : String) (stored : String) : Json :=
  if stored = NOT_FOUND_MARKER then
    if query_type ≠ ALBUM_DETAILS_TYPE then .str NOT_FOUND_MARKER else .arr []
  else
    match json_loads stored with
    | some v => v
    | none => .str stored

/-- cache_manager.py check_cache at time now: none models the Python
None of both the no-entry and the stale cases. -/
def check_cache (store : Store) (query_type : String) (params : List (String × PVal))
    (now : Int) : Option Json :=
  match store (generate_query_hash query_type params) with
  | none => none
  | some rowi =>
    if now - rowi.2 < CACHE_EXPIRY_SECONDS then some (decodeStored query_type rowi.1)
    else none

/-- Serialization of a result in update_cache.  Json.null models the
Python None argument. -/
def serialize_result (query_type : String) (result : Json) : String :=
  match result with
  | .null => NOT_FOUND_MARKER
  | .str s =>
    if s = NOT_FOUND_MARKER then
      if query_type = ALBUM_DETAILS_TYPE then "[]" else NOT_FOUND_MARKER
    else s
  | .arr l => dumps (.arr l)
  | .obj o => dumps (.obj o)
  | .num n => toString n
  | .bool b => if b then "True" else "False"

/-- cache_manager.py update_cache at time now: upsert by hash,
last-writer-wins. -/
def update_cache (store : Store) (query_type : String) (params : List (String × PVal))
    (result : Json) (now : Int) : Store :=
  let h := generate_query_hash query_type params
  let rs := serialize_result query_type result
  fun h2 => if h2 = h then some (rs, now) else store h2

/-! ## Album track-listing resolver (txt-to-spotify.py
get_album_track_details, lines 341-389)

The remote album is modelled as the full list of items its paginated
tracks endpoint enumerates (an item is the optional track id the code
reads from it); the endpoint slices that list by offset with page size
50.  Error schedules pageErr and batchErr say whether the pagination
call at a given offset, or the detail call for the batch starting at a
given index, raises.  detail models the batch track-detail response per
id: none is a null entry of the response, and the fields carry the
get-defaults (popularity 0, name N/A) the code applies. -/

structure TrackDetail where
  id : String
  popularity : Nat
  name : String
deriving DecidableEq

/-- Step 1 of the fetch: the pagination loop collecting track ids.  The
fuel is instantiated with the listing length plus one, which suffices
because every recursive step consumes a full page of 50 items. -/
def collectIds (pageErr : Nat → Bool) (listing : List (Option String)) :
    Nat → Nat → Except String (List String)
  | 0, _ => .ok []
  | fuel + 1, offset =>
    if pageErr offset then .error "network error"
    else
      let page := (listing.drop offset).take 50
      if page.isEmpty then .ok []
      else
        let ids := page.filterMap (fun it =>
          match it with
          | some tid => if tid = "" then none else some tid
          | none => none)
        if page.length < 50 then .ok ids
        else
          match collectIds pageErr listing fuel (offset + page.length) with
          | .ok more => .ok (ids ++ more)
          | .error e => .error e

/-- Step 2 of the fetch: batch detail calls of 50 ids.  The fuel is
instantiated with the id count plus one, which suffices because every
step consumes 50 ids. -/
def fetchBatches (batchErr : Nat → Bool) (detail : String → Option TrackDetail) :
    Nat → List String → Nat → Except String (List TrackDetail)
  | 0, _, _ => .ok []
  | fuel + 1, ids, i =>
    if ids.isEmpty then .ok []
    else if batchErr i then .error "network error"
    else
      let batch := ids.take 50
      let tracks := batch.filterMap (fun tid =>
        match detail tid with
        | some td => if td.id = "" then none else some td
        | none => none)
      match fetchBatches batchErr detail fuel (ids.drop 50) (i + 50) with
      | .ok more => .ok (tracks ++ more)
      | .error e => .error e

/-- The whole try block of the fetch: pagination then batch details. -/
def album_fetch (pageErr batchErr : Nat → Bool) (listing : List (Option String))
    (detail : String → Option TrackDetail) : Except String (List TrackDetail) :=
  match collectIds pageErr listing (listing.length + 1) 0 with
  | .error e => .error e
  | .ok ids => fetchBatches batchErr detail (ids.length + 1) ids 0

def albumParams (album_id : String) : List (String × PVal) :=
  [("album_id", PVal.str album_id)]

/-- The full-detail dict written for one fetched track, in the literal
key order of the source. -/
def trackToJson (t : TrackDetail) : Json :=
  .obj [("id", .str t.id), ("popularity", .num (t.popularity : Int)), ("name", .str t.name)]

/-- Reading a cached track dict back into the detail record, with the
same defaults the fetch path applies. -/
def jsonField (fields : List (String × Json)) (k : String) : Option Json :=
  (fields.find? (fun kv => kv.1 = k)).map (fun kv => kv.2)

def jsonToTrack (v : Json) : TrackDetail :=
  match v with
  | .obj fields =>
    { id := match jsonField fields "id" with
        | some (.str s) => s
        | _ => ""
      popularity := match jsonField fields "popularity" with
        | some (.num n) => n.toNat
        | _ => 0
      name := match jsonField fields "name" with
        | some (.str s) => s
        | _ => "N/A" }
  | _ => ⟨"", 0, "N/A"⟩

/-- txt-to-spotify.py get_album_track_details: cache check with the
structure validation, then the guarded fetch.  The Except error result
models an exception escaping the function: the only such exception is
the AttributeError raised by the invalid-cache branch, whose call
cache_manager.clear_specific_cache names a function that does not exist
anywhere in cache_manager.py; fetch errors are caught and turn into an
empty uncached listing.  The returned store carries the cache writes. -/
def get_album_track_details (store : Store) (album_id : String) (now : Int)
    (pageErr batchErr : Nat → Bool) (listing : List (Option String))
    (detail : String → Option TrackDetail) :
    Except String (List TrackDetail × String × Store) :=
  match check_cache store ALBUM_DETAILS_TYPE (albumParams album_id) now with
  | some (.arr l) =>
    if l.isEmpty then .ok ([], "CACHE", store)
    else
      match l.head? with
      | some (.obj fields) =>
        if fields.any (fun kv => kv.1 = "id") then .ok (l.map jsonToTrack, "CACHE", store)
        else .error "AttributeError: module cache_manager has no attribute clear_specific_cache"
      | _ => .error "AttributeError: module cache_manager has no attribute clear_specific_cache"
  | _ =>
    match album_fetch pageErr batchErr listing detail with
    | .error _ => .ok ([], "API", store)
    | .ok lst =>
      .ok (lst, "API",
        update_cache store ALBUM_DETAILS_TYPE (albumParams album_id)
          (.arr (lst.map trackToJson)) now)

/-! ## Top-track selector (txt-to-spotify.py get_top_tracks_from_album,
lines 392-417), on an already fetched listing -/

structure TrackOut where
  id : String
  name : String
deriving DecidableEq

/-- The eligible tracks: a truthy id that is not excluded. -/
def eligible_tracks (l : List TrackDetail) (excludeIds : List String) : List TrackDetail :=
  l.filter (fun t => t.id ≠ "" && !(excludeIds.contains t.id))

/-- Insert into a popularity-descending list, before the first element
whose popularity does not exceed the inserted one; this makes the
insertion sort below stable, hence equal to the Python stable sort with
reverse=True. -/
def insertPopDesc (t : TrackDetail) : List TrackDetail → List TrackDetail
  | [] => [t]
  | h :: tl => if h.popularity ≤ t.popularity then t :: h :: tl else h :: insertPopDesc t tl

def sortPopDesc : List TrackDetail → List TrackDetail
  | [] => []
  | h :: tl => insertPopDesc h (sortPopDesc tl)

/-- get_top_tracks_from_album after the listing fetch: filter, stable
sort by popularity descending, take count, project id and name. -/
def get_top_tracks_core (l : List TrackDetail) (count : Nat) (excludeIds : List String) :
    List TrackOut :=
  if l.isEmpty then []
  else
    ((sortPopDesc (eligible_tracks l excludeIds)).take count).filterMap
      (fun t => if t.id ≠ "" then some ⟨t.id, t.name⟩ else none)

/-! ## Retry wrapper (txt-to-spotify.py call_with_retry, lines 162-187)

The call under retry is an oracle from the attempt number to its
outcome.  The wrapper returns the final result together with the trace
of externally visible events: the rate-limiter wait before each
attempt, the attempt itself, and every retry sleep with its duration in
seconds. -/

def MAX_RETRIES : Nat := 3

def RETRY_DELAY : Nat := 5

inductive CallOutcome where
  | ok (v : Nat)
  | spotifyErr (status : Nat) (retryAfter : Option Nat)
  | netErr (msg : String)

inductive RetryEvent where
  | wait
  | call (attempt : Nat)
  | sleep (seconds : Nat)
deriving DecidableEq

inductive CallError where
  | spotify (status : Nat)
  | network (msg : String)
  | exhausted
deriving DecidableEq

/-- The retry loop from a given attempt number, with the remaining
iteration count of the range as the structural argument
(remaining = MAX_RETRIES - attempt at every call). -/
def callRetryAux (f : Nat → CallOutcome) :
    Nat → Nat → Except CallError Nat × List RetryEvent
  | 0, _ => (.error .exhausted, [])
  | remaining + 1, attempt =>
    let evts := [RetryEvent.wait, RetryEvent.call attempt]
    match f attempt with
    | .ok v => (.ok v, evts)
    | .spotifyErr status retryAfter =>
      if status = 429 then
        let d := retryAfter.getD RETRY_DELAY
        let rec2 := callRetryAux f remaining (attempt + 1)
        (rec2.1, evts ++ RetryEvent.sleep d :: rec2.2)
      else (.error (.spotify status), evts)
    | .netErr m =>
      if attempt < MAX_RETRIES - 1 then
        let rec2 := callRetryAux f remaining (attempt + 1)
        (rec2.1, evts ++ RetryEvent.sleep (RETRY_DELAY * (attempt + 1)) :: rec2.2)
      else (.error (.network m), evts)

/-- txt-to-spotify.py call_with_retry. -/
def call_with_retry (f : Nat → CallOutcome) : Except CallError Nat × List RetryEvent :=
  callRetryAux f MAX_RETRIES 0

def RetryEvent.isCall : RetryEvent → Bool
  | .call _ => true
  | _ => false

/-! ## Lemmas about the name normalizer -/

theorem dedupKeepFirst_length_le (l : List String) :
    ∀ seen, (dedupKeepFirst seen l).length ≤ l.length := by
  induction l with
  | nil => intro seen; simp [dedupKeepFirst]
  | cons x xs ih =>
    intro seen
    by_cases hx : x ∈ seen
    · simp only [dedupKeepFirst, if_pos hx]
      exact le_trans (ih seen) (Nat.le_succ _)
    · simp only [dedupKeepFirst, if_neg hx, List.length_cons]
      exact Nat.succ_le_succ (ih (x :: seen))

theorem dedupKeepFirst_nodup_aux (l : List String) :
    ∀ seen, (dedupKeepFirst seen l).Nodup ∧ ∀ x ∈ dedupKeepFirst seen l, x ∉ seen := by
  induction l with
  | nil => intro seen; simp [dedupKeepFirst]
  | cons x xs ih =>
    intro seen
    by_cases hx : x ∈ seen
    · simp only [dedupKeepFirst, if_pos hx]
      exact ih seen
    · simp only [dedupKeepFirst, if_neg hx]
      obtain ⟨hnd, hmem⟩ := ih (x :: seen)
      refine ⟨List.nodup_cons.mpr ⟨fun hxin => ?_, hnd⟩, ?_⟩
      · exact hmem x hxin (List.mem_cons_self x seen)
      · intro y hy
        rcases List.mem_cons.mp hy with rfl | hy2
        · exact hx
        · intro hyseen
          exact hmem y hy2 (List.mem_cons_of_mem x hyseen)

theorem dedupKeepFirst_nodup (l : List String) : (dedupKeepFirst [] l).Nodup :=
  (dedupKeepFirst_nodup_aux l []).1

theorem dedupKeepFirst_cons (x : String) (l : List String) :
    dedupKeepFirst [] (x :: l) = x :: dedupKeepFirst [x] l := by
  simp [dedupKeepFirst]

/-- The pre-deduplication variant list always starts with the raw name
and has at most three elements. -/
theorem get_search_variants_shape (name : String) (h : name ≠ "") :
    ∃ t : List String, get_search_variants name = dedupKeepFirst [] (name :: t) ∧
      t.length ≤ 2 := by
  unfold get_search_variants
  rw [if_neg h]
  simp only []
  split_ifs
  · exact ⟨[extract_western_name name, cleanName name], by simp, by simp⟩
  · exact ⟨[extract_western_name name], by simp, by simp⟩
  · exact ⟨[cleanName name], by simp, by simp⟩
  · exact ⟨[], by simp, by simp⟩

theorem get_search_variants_head (name : String) (h : name ≠ "") :
    (get_search_variants name).head? = some name := by
  obtain ⟨t, ht, -⟩ := get_search_variants_shape name h
  rw [ht, dedupKeepFirst_cons]
  rfl

theorem get_search_variants_length (name : String) (h : name ≠ "") :
    1 ≤ (get_search_variants name).length ∧ (get_search_variants name).length ≤ 3 := by
  obtain ⟨t, ht, htl⟩ := get_search_variants_shape name h
  constructor
  · have hh := get_search_variants_head name h
    cases hv : get_search_variants name with
    | nil => rw [hv] at hh; simp at hh
    | cons a l => simp [hv]
  · rw [ht]
    calc (dedupKeepFirst [] (name :: t)).length ≤ (name :: t).length :=
          dedupKeepFirst_length_le _ _
      _ = t.length + 1 := by simp
      _ ≤ 3 := by omega

theorem get_search_variants_nodup (name : String) (h : name ≠ "") :
    (get_search_variants name).Nodup := by
  obtain ⟨t, ht, -⟩ := get_search_variants_shape name h
  rw [ht]
  exact dedupKeepFirst_nodup _

/-- The de-duplication pass is the identity on a list without
duplicates whose elements avoid the seen set. -/
theorem dedupKeepFirst_eq_self :
    ∀ (l seen : List String), l.Nodup → (∀ x ∈ l, x ∉ seen) →
      dedupKeepFirst seen l = l := by
  intro l
  induction l with
  | nil => intro seen _ _; rfl
  | cons x xs ih =>
    intro seen hnd hdisj
    rw [dedupKeepFirst, if_neg (hdisj x (List.mem_cons_self x xs))]
    congr 1
    refine ih (x :: seen) (List.nodup_cons.mp hnd).2 ?_
    intro y hy hymem
    rcases List.mem_cons.mp hymem with rfl | hyseen
    · exact (List.nodup_cons.mp hnd).1 hy
    · exact hdisj y (List.mem_cons_of_mem x hy) hyseen

/-- The exact variant list of a non-empty name: the raw name; then the
western alias (stripped content of the first square-bracket pair, or of
the first parenthesis pair when there is no bracket pair) when it
differs from the raw name; then the clean form (all bracket and
parenthesis spans removed, surrounding whitespace stripped) when
non-empty and not already present. -/
theorem get_search_variants_eq (name : String) (h : name ≠ "") :
    get_search_variants name =
      ([name] ++
          (if extract_western_name name ≠ name then [extract_western_name name] else [])) ++
        (if cleanName name ≠ "" ∧
            cleanName name ∉
              [name] ++
                (if extract_western_name name ≠ name then [extract_western_name name] else [])
          then [cleanName name] else []) := by
  unfold get_search_variants
  rw [if_neg h]
  simp only []
  by_cases h1 : extract_western_name name ≠ name
  · simp only [if_pos h1]
    by_cases h2 : cleanName name ≠ "" ∧
        cleanName name ∉ [name] ++ [extract_western_name name]
    · simp only [if_pos h2]
      have hcm := h2.2
      simp only [List.mem_append, List.mem_singleton, not_or] at hcm
      refine dedupKeepFirst_eq_self _ [] ?_ (by simp)
      have hne1 : name ≠ extract_western_name name := Ne.symm h1
      have hne2 : extract_western_name name ≠ cleanName name := fun he => hcm.2 he.symm
      have hne3 : name ≠ cleanName name := fun he => hcm.1 he.symm
      simp [hne1, hne2, hne3]
    · simp only [if_neg h2, List.append_nil]
      refine dedupKeepFirst_eq_self _ [] ?_ (by simp)
      simp [Ne.symm h1]
  · simp only [if_neg h1, List.append_nil]
    by_cases h2 : cleanName name ≠ "" ∧ cleanName name ∉ [name]
    · simp only [if_pos h2]
      have hcm := h2.2
      simp only [List.mem_singleton] at hcm
      refine dedupKeepFirst_eq_self _ [] ?_ (by simp)
      simp [Ne.symm hcm]
    · simp only [if_neg h2, List.append_nil]
      exact dedupKeepFirst_eq_self _ [] (by simp) (by simp)

/-! ## Claim C6 -/

/-- C6 counterexample: the claim describes the third variant as the raw
name with bracket spans removed and whitespace collapsed, which on the
input "A [x] B" would be "A B"; the code only strips the surrounding
whitespace, so the third variant keeps the interior double space and the
collapsed form is not among the variants. -/
theorem c6_counterexample :
    get_search_variants "A [x] B" = ["A [x] B", "x", "A  B"] ∧
    "A B" ∉ get_search_variants "A [x] B" := by
  constructor
  · rfl
  · decide

/-- C6 (amended): for every non-empty raw name, the variant generator
returns exactly this ordered, duplicate-free list of 1 to 3 strings:
the raw name first; then the western alias — the stripped content of
the first square-bracket pair, or, when there is no bracket pair, of
the first parenthesis pair — if different from the raw name; then the
raw name with all bracket and parenthesis spans removed and its
surrounding (not interior) whitespace stripped, if non-empty and
different from the others.  Empty input yields the empty list, and the
variants of "Sigur Rós [Icelandic]" are exactly the three strings of
the claim, in order. -/
theorem c6_amended_variants :
    get_search_variants "" = [] ∧
    (∀ name : String, name ≠ "" →
      get_search_variants name =
        ([name] ++
            (if extract_western_name name ≠ name then [extract_western_name name] else [])) ++
          (if cleanName name ≠ "" ∧
              cleanName name ∉
                [name] ++
                  (if extract_western_name name ≠ name then [extract_western_name name] else [])
            then [cleanName name] else []) ∧
      (get_search_variants name).head? = some name ∧
      1 ≤ (get_search_variants name).length ∧
      (get_search_variants name).length ≤ 3 ∧
      (get_search_variants name).Nodup) ∧
    get_search_variants "Sigur Rós [Icelandic]" =
      ["Sigur Rós [Icelandic]", "Icelandic", "Sigur Rós"] := by
  refine ⟨rfl, fun name h => ?_, rfl⟩
  exact ⟨get_search_variants_eq name h, get_search_variants_head name h,
    (get_search_variants_length name h).1, (get_search_variants_length name h).2,
    get_search_variants_nodup name h⟩

/-- C6 witness: the amended theorem applied to the non-empty concrete
name of the claim. -/
theorem c6_witness :
    (get_search_variants "Sigur Rós [Icelandic]").head? = some "Sigur Rós [Icelandic]" :=
  (c6_amended_variants.2.1 "Sigur Rós [Icelandic]" (by decide)).2.1

/-! ## Lemmas about the song resolver -/

theorem head?_take_succ {α : Type} (n : Nat) (l : List α) :
    (l.take (n + 1)).head? = l.head? := by
  cases l <;> simp

theorem primaryAlbumOf_some (a : String) (h : a ≠ "") :
    primaryAlbumOf (some a) = some a := by
  simp only [primaryAlbumOf]
  rw [if_neg h, head?_take_succ, get_search_variants_head a h]

/-- The stage-2 loop takes the first candidate passing the album check. -/
theorem songStage2_some_eq_find (av : String) (l : List TrackObj) :
    songStage2 (some av) l =
      (l.find? (fun t => decide (ratio (pyLower av) (pyLower t.albumName) > mkRat 4 5))).map
        TrackObj.toFound := by
  induction l with
  | nil => rfl
  | cons t rest ih =>
    by_cases hr : ratio (pyLower av) (pyLower t.albumName) > mkRat 4 5
    · simp [songStage2, List.find?, hr]
    · simp [songStage2, List.find?, hr, ih]

/-- When stage 1 came back empty, a stage-2 acceptance is the result of
the resolver, with the fuzzy flag false. -/
theorem search_song_resolve_of_stage2 (song albumN artist : String)
    (r2 r3 : List TrackObj) (f : FoundTrack)
    (hs : song ≠ "") (ha : artist ≠ "") (hal : albumN ≠ "")
    (h2 : songStage2 (some albumN) r2 = some f) :
    search_song_resolve song (some albumN) artist [] r2 r3 = some (f, false) := by
  unfold search_song_resolve
  rw [head?_take_succ, head?_take_succ, get_search_variants_head song hs,
    get_search_variants_head artist ha]
  simp only [primaryAlbumOf_some albumN hal, songStage1, List.head?, h2]
  rfl

/-! ## Claim C1 -/

/-- C1 counterexample: with no album supplied, stage 2 (stage 1 is
skipped when there is no album, so stage 2 is reached with stage 1
having found nothing) accepts the first candidate even though the
queried song name Hello has similarity 0 with the candidate track name
Xyzzy, far below 0.95, and the queried artist Adele matches no candidate
artist; the claim says such a candidate is never accepted. -/
theorem c1_counterexample :
    search_song_resolve "Hello" none "Adele" []
      [⟨"x1", "Xyzzy", "Whatever", ["Nobody"]⟩] [] =
      some (⟨"x1", "Xyzzy", "Whatever"⟩, false) ∧
    ¬ ratio (pyLower "Hello") (pyLower "Xyzzy") ≥ mkRat 19 20 ∧
    artistMatches "Adele" ["Nobody"] = false := by
  refine ⟨rfl, by decide, by decide⟩

/-- C1 (amended): in Stage 2 of the song resolver (reached only when
Stage 1 produced nothing) a candidate track is accepted with no
song-name-similarity and no artist check: when an album name was
supplied, the first candidate whose album similarity with it exceeds 0.8
is accepted, and when no album was supplied the first candidate is
accepted unconditionally; a stage-2 acceptance is returned with the
fuzzy flag unset. -/
theorem c1_amended_stage2_acceptance :
    (∀ (av : String) (l : List TrackObj),
      songStage2 (some av) l =
        (l.find? (fun t => decide (ratio (pyLower av) (pyLower t.albumName) > mkRat 4 5))).map
          TrackObj.toFound) ∧
    (∀ l : List TrackObj, songStage2 none l = l.head?.map TrackObj.toFound) ∧
    (∀ (song albumN artist : String) (r2 r3 : List TrackObj) (f : FoundTrack),
      song ≠ "" → artist ≠ "" → albumN ≠ "" →
      songStage2 (some albumN) r2 = some f →
      search_song_resolve song (some albumN) artist [] r2 r3 = some (f, false)) := by
  refine ⟨songStage2_some_eq_find, fun l => ?_, search_song_resolve_of_stage2⟩
  cases l <;> rfl

/-- C1 witness: the amended theorem applied at a concrete stage-2
acceptance. -/
theorem c1_witness :
    search_song_resolve "Hello" (some "AlbumX") "Adele" []
      [⟨"x1", "N", "AlbumX", ["A"]⟩] [] = some (⟨"x1", "N", "AlbumX"⟩, false) :=
  c1_amended_stage2_acceptance.2.2 "Hello" "AlbumX" "Adele"
    [⟨"x1", "N", "AlbumX", ["A"]⟩] [] ⟨"x1", "N", "AlbumX"⟩
    (by decide) (by decide) (by decide) (by decide)

/-! ## Claim C2 -/

/-- C2 counterexample: stage 1 accepts the single returned track even
though the supplied album name Kid A has similarity 0 with the returned
album name ZZZZ, below the 0.8 the claim requires for acceptance. -/
theorem c2_counterexample :
    search_song_resolve "Creep" (some "Kid A") "Radiohead"
      [⟨"id1", "Creep", "ZZZZ", ["Radiohead"]⟩] [] [] =
      some (⟨"id1", "Creep", "ZZZZ"⟩, false) ∧
    ¬ ratio (pyLower "Kid A") (pyLower "ZZZZ") > mkRat 4 5 := by
  refine ⟨rfl, by decide⟩

/-- C2 (amended): for every song query with an album name supplied,
Stage 1 of the song resolver (track+album+artist scoped query, limit 1)
accepts the returned track unconditionally whenever the query returns a
result; no album-similarity requirement is applied to it. -/
theorem c2_amended_stage1_unconditional (song albumN artist : String)
    (t : TrackObj) (rest r2 r3 : List TrackObj)
    (hs : song ≠ "") (ha : artist ≠ "") (hal : albumN ≠ "") :
    search_song_resolve song (some albumN) artist (t :: rest) r2 r3 =
      some (t.toFound, false) := by
  unfold search_song_resolve
  rw [head?_take_succ, head?_take_succ, get_search_variants_head song hs,
    get_search_variants_head artist ha]
  simp only [primaryAlbumOf_some albumN hal]
  rfl

/-- C2 witness: the amended theorem at a concrete query and result. -/
theorem c2_witness :
    search_song_resolve "Creep" (some "Pablo Honey") "Radiohead"
      [⟨"id9", "Creep", "OK Computer", ["Radiohead"]⟩] [] [] =
      some (⟨"id9", "Creep", "OK Computer"⟩, false) :=
  c2_amended_stage1_unconditional "Creep" "Pablo Honey" "Radiohead"
    ⟨"id9", "Creep", "OK Computer", ["Radiohead"]⟩ [] [] []
    (by decide) (by decide) (by decide)

/-! ## Claim C3 -/

/-- C3 counterexample: the normalizer sorts the parameter items by their
original keys and only lower-cases the keys afterwards, so re-casing a
key can change the sort order and with it the digest: with keys B and a,
the upper-case B sorts before a while the lower-case b sorts after it,
and the two digests differ although the claim says key case never
matters for a non-album-track-listing type. -/
theorem c3_counterexample :
    generate_query_hash "search_song" [("B", .str "x"), ("a", .str "y")] ≠
      generate_query_hash "search_song" [("b", .str "x"), ("a", .str "y")] := by
  decide

/-- Two parameter entries that render identically in the digest
preimage: keys equal after lower-casing and stripping, values equal
after normalization. -/
def entryEquiv (kv1 kv2 : String × PVal) : Prop :=
  pyStrip (pyLower kv1.1) = pyStrip (pyLower kv2.1) ∧ pvalNorm kv1.2 = pvalNorm kv2.2

/-- Two parameter entries with the very same key and values equal after
normalization. -/
def keyValEquiv (kv1 kv2 : String × PVal) : Prop :=
  kv1.1 = kv2.1 ∧ pvalNorm kv1.2 = pvalNorm kv2.2

/-- Entries that correspond under entryEquiv render identically. -/
theorem map_normEntry_eq :
    ∀ {l1 l2 : List (String × PVal)}, List.Forall₂ entryEquiv l1 l2 →
      l1.map (fun kv => pyStrip (pyLower kv.1) ++ ":" ++ pvalNorm kv.2) =
        l2.map (fun kv => pyStrip (pyLower kv.1) ++ ":" ++ pvalNorm kv.2) := by
  intro l1 l2 h
  induction h with
  | nil => rfl
  | cons hab _ ih =>
    simp only [List.map_cons, ih]
    rw [hab.1, hab.2]

/-- The digest preimage of a non-album-details query is determined by
the normalized renderings of the sorted entries: two parameter dicts
whose sorted entries correspond under entryEquiv hash alike. -/
theorem generate_query_hash_congr (t : String) (ps qs : List (String × PVal))
    (ht : t ≠ ALBUM_DETAILS_TYPE)
    (h : List.Forall₂ entryEquiv (sortPairs ps) (sortPairs qs)) :
    generate_query_hash t ps = generate_query_hash t qs := by
  unfold generate_query_hash
  rw [if_neg (fun hc => ht hc.1), if_neg (fun hc => ht hc.1), map_normEntry_eq h]

/-- The insertion sort compares keys only, so keyValEquiv correspondence
is preserved through an insertion. -/
theorem insortPair_forall2 (x y : String × PVal) (hxy : keyValEquiv x y) :
    ∀ {l1 l2 : List (String × PVal)}, List.Forall₂ keyValEquiv l1 l2 →
      List.Forall₂ keyValEquiv (insortPair x l1) (insortPair y l2) := by
  intro l1 l2 h
  induction h with
  | nil => exact List.Forall₂.cons hxy List.Forall₂.nil
  | @cons a b l1t l2t hab htail ih =>
    simp only [insortPair]
    rw [hxy.1, hab.1]
    by_cases hc : (strLt y.1 b.1 || y.1 == b.1) = true
    · rw [if_pos hc, if_pos hc]
      exact .cons hxy (.cons hab htail)
    · rw [if_neg hc, if_neg hc]
      exact .cons hab ih

/-- keyValEquiv correspondence is preserved by the whole sort. -/
theorem sortPairs_forall2 :
    ∀ {ps qs : List (String × PVal)}, List.Forall₂ keyValEquiv ps qs →
      List.Forall₂ keyValEquiv (sortPairs ps) (sortPairs qs) := by
  intro ps qs h
  induction h with
  | nil => exact .nil
  | cons hab _ ih => exact insortPair_forall2 _ _ hab ih

/-- C3 (amended): the cache digest is invariant under string-value case
and surrounding whitespace of string values, and under key case whenever
the re-casing keeps the key sort order — stated universally: for every
non-album-track-listing type, two parameter dicts whose sorted entries
still correspond with keys equal up to case and surrounding whitespace
and values equal up to normalization hash alike (first conjunct, the
sort-order proviso being the correspondence of the sorted lists), two
dicts with the very same keys and values equal up to case and
surrounding whitespace always hash alike (second conjunct), and in
particular hash(t, A maps to Foo) equals hash(t, a maps to stripped foo)
for single-key params (third conjunct); for the album-track-listing
type the digest is derived from the album_id field alone and is
case-sensitive, so abc and ABC give different digests.  Full key-case
invariance fails because the items are sorted before the keys are
lower-cased (see the counterexample). -/
theorem c3_amended_hash_invariance :
    (∀ (t : String) (ps qs : List (String × PVal)), t ≠ ALBUM_DETAILS_TYPE →
      List.Forall₂ entryEquiv (sortPairs ps) (sortPairs qs) →
      generate_query_hash t ps = generate_query_hash t qs) ∧
    (∀ (t : String) (ps qs : List (String × PVal)), t ≠ ALBUM_DETAILS_TYPE →
      List.Forall₂ keyValEquiv ps qs →
      generate_query_hash t ps = generate_query_hash t qs) ∧
    (∀ t : String, t ≠ ALBUM_DETAILS_TYPE →
      generate_query_hash t [("A", .str "Foo")] =
        generate_query_hash t [("a", .str " foo ")]) ∧
    generate_query_hash ALBUM_DETAILS_TYPE [("album_id", .str "abc")] ≠
      generate_query_hash ALBUM_DETAILS_TYPE [("album_id", .str "ABC")] := by
  refine ⟨generate_query_hash_congr, fun t ps qs ht h => ?_, fun t ht => ?_, by decide⟩
  · refine generate_query_hash_congr t ps qs ht ((sortPairs_forall2 h).imp ?_)
    intro kv1 kv2 hkv
    exact ⟨by rw [hkv.1], hkv.2⟩
  · refine generate_query_hash_congr t _ _ ht ?_
    exact .cons ⟨rfl, rfl⟩ .nil

/-- C3 witness: the single-key instance of the invariance applied at a
concrete non-album-track-listing type. -/
theorem c3_witness :
    generate_query_hash "search_song" [("A", .str "Foo")] =
      generate_query_hash "search_song" [("a", .str " foo ")] :=
  c3_amended_hash_invariance.2.2.1 "search_song" (by decide)

/-! ## Claim C4 -/

/-- C4: writing an entry at time T and reading it at time t is a hit
returning the decode of the stored text exactly when the age t - T is
below the expiry window, and a miss once the age reaches the window; in
particular a concrete entry written at time 0 is a hit at expiry minus
one and a miss at expiry. -/
theorem c4_cache_expiry :
    (∀ (store : Store) (qt : String) (ps : List (String × PVal)) (result : Json)
        (T t : Int),
      (t - T < CACHE_EXPIRY_SECONDS →
        check_cache (update_cache store qt ps result T) qt ps t =
          some (decodeStored qt (serialize_result qt result))) ∧
      (CACHE_EXPIRY_SECONDS ≤ t - T →
        check_cache (update_cache store qt ps result T) qt ps t = none)) ∧
    check_cache
        (update_cache emptyStore "search_song" [("k", .str "v")] (.str "track123") 0)
        "search_song" [("k", .str "v")] (CACHE_EXPIRY_SECONDS - 1) =
      some (.str "track123") ∧
    check_cache
        (update_cache emptyStore "search_song" [("k", .str "v")] (.str "track123") 0)
        "search_song" [("k", .str "v")] CACHE_EXPIRY_SECONDS = none := by
  refine ⟨fun store qt ps result T t => ⟨fun hlt => ?_, fun hge => ?_⟩, ?_, ?_⟩
  · simp [check_cache, update_cache, hlt]
  · simp [check_cache, update_cache, not_lt.mpr hge]
  · rfl
  · rfl

/-- C4 witness: the hit half applied at a concrete fresh read. -/
theorem c4_witness :
    check_cache
        (update_cache emptyStore "search_song" [("k", .str "v")] (.str "track123") 0)
        "search_song" [("k", .str "v")] 100 =
      some (decodeStored "search_song" (serialize_result "search_song" (.str "track123"))) :=
  (c4_cache_expiry.1 emptyStore "search_song" [("k", .str "v")]
    (.str "track123") 0 100).1 (by decide)

/-! ## Claim C5 -/

/-- C5: a put of the Python None or of the not-found marker, followed by
a fresh get of the same query, returns the typed absent value: the empty
list for the album-track-listing type and the marker string for every
other type. -/
theorem c5_notfound_roundtrip :
    ∀ (store : Store) (qt : String) (ps : List (String × PVal)) (result : Json)
      (T t : Int),
      result = .null ∨ result = .str NOT_FOUND_MARKER →
      t - T < CACHE_EXPIRY_SECONDS →
      check_cache (update_cache store qt ps result T) qt ps t =
        some (if qt = ALBUM_DETAILS_TYPE then .arr [] else .str NOT_FOUND_MARKER) := by
  intro store qt ps result T t hres hfresh
  have hstep : check_cache (update_cache store qt ps result T) qt ps t =
      some (decodeStored qt (serialize_result qt result)) := by
    simp [check_cache, update_cache, hfresh]
  rw [hstep]
  by_cases hq : qt = ALBUM_DETAILS_TYPE
  · subst hq
    rcases hres with rfl | rfl
    · rfl
    · rfl
  · rcases hres with rfl | rfl
    · simp [serialize_result, decodeStored, hq]
    · simp [serialize_result, decodeStored, hq]

/-- C5 witness: a concrete put of None for the album-track-listing type
followed by a fresh get yields the empty list. -/
theorem c5_witness :
    check_cache
        (update_cache emptyStore ALBUM_DETAILS_TYPE [("album_id", .str "A")] .null 5)
        ALBUM_DETAILS_TYPE [("album_id", .str "A")] 10 = some (.arr []) := by
  have h := c5_notfound_roundtrip emptyStore ALBUM_DETAILS_TYPE [("album_id", .str "A")]
    .null 5 10 (Or.inl rfl) (by decide)
  simpa using h

/-! ## Lemmas about the top-track selector -/

theorem insertPopDesc_perm (t : TrackDetail) (l : List TrackDetail) :
    List.Perm (insertPopDesc t l) (t :: l) := by
  induction l with
  | nil => exact List.Perm.refl _
  | cons h tl ih =>
    by_cases hc : h.popularity ≤ t.popularity
    · rw [insertPopDesc, if_pos hc]
    · rw [insertPopDesc, if_neg hc]
      exact (ih.cons h).trans (List.Perm.swap t h tl)

theorem sortPopDesc_perm (l : List TrackDetail) : List.Perm (sortPopDesc l) l := by
  induction l with
  | nil => exact List.Perm.refl _
  | cons h tl ih =>
    exact (insertPopDesc_perm h (sortPopDesc tl)).trans (ih.cons h)

/-- The descending-popularity order maintained by the sort. -/
def popGE (a b : TrackDetail) : Prop := b.popularity ≤ a.popularity

theorem insertPopDesc_pairwise (t : TrackDetail) (l : List TrackDetail)
    (h : List.Pairwise popGE l) : List.Pairwise popGE (insertPopDesc t l) := by
  induction l with
  | nil => simp [insertPopDesc, List.Pairwise]
  | cons hd tl ih =>
    rw [List.pairwise_cons] at h
    by_cases hc : hd.popularity ≤ t.popularity
    · rw [insertPopDesc, if_pos hc]
      refine List.pairwise_cons.mpr ⟨?_, List.pairwise_cons.mpr ⟨h.1, h.2⟩⟩
      intro x hx
      rcases List.mem_cons.mp hx with rfl | hx2
      · exact hc
      · exact le_trans (h.1 x hx2) hc
    · rw [insertPopDesc, if_neg hc]
      refine List.pairwise_cons.mpr ⟨?_, ih h.2⟩
      intro x hx
      have hx2 : x ∈ t :: tl := (insertPopDesc_perm t tl).mem_iff.mp hx
      rcases List.mem_cons.mp hx2 with rfl | hx3
      · exact le_of_lt (lt_of_not_le hc)
      · exact h.1 x hx3

theorem sortPopDesc_pairwise (l : List TrackDetail) :
    List.Pairwise popGE (sortPopDesc l) := by
  induction l with
  | nil => simp [sortPopDesc]
  | cons h tl ih => exact insertPopDesc_pairwise h (sortPopDesc tl) ih

theorem insertPopDesc_filter (t : TrackDetail) (l : List TrackDetail) (p : Nat) :
    (insertPopDesc t l).filter (fun x => x.popularity == p) =
      if t.popularity = p then t :: l.filter (fun x => x.popularity == p)
      else l.filter (fun x => x.popularity == p) := by
  induction l with
  | nil => by_cases hp : t.popularity = p <;> simp [insertPopDesc, hp]
  | cons hd tl ih =>
    by_cases hc : hd.popularity ≤ t.popularity
    · rw [insertPopDesc, if_pos hc]
      by_cases hp : t.popularity = p <;> simp [List.filter_cons, beq_iff_eq, hp]
    · rw [insertPopDesc, if_neg hc]
      have htlt : t.popularity < hd.popularity := lt_of_not_le hc
      by_cases hp : t.popularity = p
      · have hhd : ¬ hd.popularity = p := by omega
        simp [List.filter_cons, beq_iff_eq, hp, hhd, ih]
      · by_cases hhd : hd.popularity = p <;>
          simp [List.filter_cons, beq_iff_eq, hp, hhd, ih]

/-- Stability of the sort: among the tracks of each fixed popularity the
catalog order is preserved. -/
theorem sortPopDesc_filter (l : List TrackDetail) (p : Nat) :
    (sortPopDesc l).filter (fun x => x.popularity == p) =
      l.filter (fun x => x.popularity == p) := by
  induction l with
  | nil => rfl
  | cons h tl ih =>
    rw [sortPopDesc, insertPopDesc_filter]
    by_cases hp : h.popularity = p <;> simp [List.filter_cons, beq_iff_eq, hp, ih]

/-! ## Claim C7 -/

/-- C7: on every album track listing, count and exclusion set, the
selector returns no excluded track, at most count tracks, the ranking
list it draws from is sorted by popularity descending, and ties keep the
catalog order (filtering the sorted eligible list to one popularity
value gives exactly the eligible tracks of that popularity in catalog
order); in particular, excluding the most popular track of a concrete
three-track listing with count 1 selects the second most popular
track. -/
theorem c7_top_tracks :
    (∀ (l : List TrackDetail) (count : Nat) (excludeIds : List String),
      (∀ x ∈ get_top_tracks_core l count excludeIds, x.id ∉ excludeIds) ∧
      (get_top_tracks_core l count excludeIds).length ≤ count ∧
      List.Pairwise popGE ((sortPopDesc (eligible_tracks l excludeIds)).take count) ∧
      (∀ p : Nat,
        (sortPopDesc (eligible_tracks l excludeIds)).filter (fun x => x.popularity == p) =
          (eligible_tracks l excludeIds).filter (fun x => x.popularity == p))) ∧
    get_top_tracks_core [⟨"T1", 90, "A"⟩, ⟨"T2", 80, "B"⟩, ⟨"T3", 85, "C"⟩] 1 ["T1"] =
      [⟨"T3", "C"⟩] := by
  refine ⟨fun l count ex => ⟨?_, ?_, ?_, fun p => sortPopDesc_filter _ p⟩, by decide⟩
  · intro x hx
    unfold get_top_tracks_core at hx
    by_cases hl : l.isEmpty
    · simp [hl] at hx
    · rw [if_neg (by simpa using hl)] at hx
      obtain ⟨t, ht, hxt⟩ := List.mem_filterMap.mp hx
      by_cases hid : t.id ≠ ""
      · rw [if_pos hid] at hxt
        have hx2 : x = ⟨t.id, t.name⟩ := (Option.some.injEq _ _).mp hxt.symm
        have ht2 : t ∈ sortPopDesc (eligible_tracks l ex) := List.mem_of_mem_take ht
        have ht3 : t ∈ eligible_tracks l ex := (sortPopDesc_perm _).mem_iff.mp ht2
        have hcond := List.of_mem_filter ht3
        simp only [Bool.and_eq_true, Bool.not_eq_true'] at hcond
        subst hx2
        intro hmem
        have : ex.contains t.id = true := List.elem_eq_true_of_mem hmem
        rw [hcond.2] at this
        exact Bool.false_ne_true this
      · rw [if_neg hid] at hxt
        exact absurd hxt (Option.noConfusion)
  · unfold get_top_tracks_core
    by_cases hl : l.isEmpty
    · simp [hl]
    · rw [if_neg (by simpa using hl)]
      calc (((sortPopDesc (eligible_tracks l ex)).take count).filterMap _).length
          ≤ ((sortPopDesc (eligible_tracks l ex)).take count).length :=
            List.length_filterMap_le _ _
        _ ≤ count := List.length_take_le _ _
  · exact (sortPopDesc_pairwise _).sublist (List.take_sublist _ _)

/-- C7 witness: the membership part of the theorem applied to the
selected track of the concrete listing. -/
theorem c7_witness :
    (⟨"T3", "C"⟩ : TrackOut).id ∉ ["T1"] :=
  (c7_top_tracks.1 [⟨"T1", 90, "A"⟩, ⟨"T2", 80, "B"⟩, ⟨"T3", 85, "C"⟩] 1 ["T1"]).1
    ⟨"T3", "C"⟩ (by decide)

/-! ## Claim C8 -/

/-- On a cache miss the resolver runs the guarded fetch. -/
theorem get_album_track_details_miss (store : Store) (aid : String) (now : Int)
    (pageErr batchErr : Nat → Bool) (listing : List (Option String))
    (detail : String → Option TrackDetail)
    (hmiss : check_cache store ALBUM_DETAILS_TYPE (albumParams aid) now = none) :
    get_album_track_details store aid now pageErr batchErr listing detail =
      match album_fetch pageErr batchErr listing detail with
      | .error _ => .ok ([], "API", store)
      | .ok lst =>
        .ok (lst, "API",
          update_cache store ALBUM_DETAILS_TYPE (albumParams aid)
            (.arr (lst.map trackToJson)) now) := by
  unfold get_album_track_details
  rw [hmiss]

/-- C8: on a cache miss, a fetch that raises at any point (pagination or
batch detail) writes nothing to the cache and returns the empty list
with source API, so the failed fetch is retried on a later run; a fetch
that succeeds, even with an empty listing, is written to the cache.
Concretely: a fetch failing on the first pagination call returns empty
with the store untouched, and a successful empty fetch stores the
empty-list document under the album hash. -/
theorem c8_fetch_failure_no_cache :
    (∀ (store : Store) (aid : String) (now : Int) (pageErr batchErr : Nat → Bool)
        (listing : List (Option String)) (detail : String → Option TrackDetail),
      check_cache store ALBUM_DETAILS_TYPE (albumParams aid) now = none →
      (∀ e, album_fetch pageErr batchErr listing detail = .error e →
        get_album_track_details store aid now pageErr batchErr listing detail =
          .ok ([], "API", store)) ∧
      (∀ lst, album_fetch pageErr batchErr listing detail = .ok lst →
        get_album_track_details store aid now pageErr batchErr listing detail =
          .ok (lst, "API",
            update_cache store ALBUM_DETAILS_TYPE (albumParams aid)
              (.arr (lst.map trackToJson)) now) ∧
        (update_cache store ALBUM_DETAILS_TYPE (albumParams aid)
            (.arr (lst.map trackToJson)) now)
            (generate_query_hash ALBUM_DETAILS_TYPE (albumParams aid)) =
          some (dumps (.arr (lst.map trackToJson)), now))) ∧
    get_album_track_details emptyStore "A1" 100 (fun _ => true) (fun _ => false)
      [some "t1"] (fun _ => none) = .ok ([], "API", emptyStore) ∧
    (∃ st : Store,
      get_album_track_details emptyStore "A2" 100 (fun _ => false) (fun _ => false) []
          (fun _ => none) = .ok ([], "API", st) ∧
      st (generate_query_hash ALBUM_DETAILS_TYPE (albumParams "A2")) =
        some ("[]", 100)) := by
  refine ⟨fun store aid now pe be listing detail hmiss => ⟨fun e he => ?_, fun lst hl => ?_⟩,
    ?_, ?_⟩
  · rw [get_album_track_details_miss store aid now pe be listing detail hmiss, he]
  · rw [get_album_track_details_miss store aid now pe be listing detail hmiss, hl]
    exact ⟨rfl, by simp [update_cache, serialize_result]⟩
  · rfl
  · exact ⟨_, rfl, rfl⟩

/-- C8 witness: the success half of the general statement at a concrete
one-track fetch, whose listing is then stored under the album hash. -/
theorem c8_witness :
    get_album_track_details emptyStore "A3" 100 (fun _ => false) (fun _ => false)
        [some "t1"] (fun tid => if tid = "t1" then some ⟨"t1", 70, "Song"⟩ else none) =
      .ok ([⟨"t1", 70, "Song"⟩], "API",
        update_cache emptyStore ALBUM_DETAILS_TYPE (albumParams "A3")
          (.arr [trackToJson ⟨"t1", 70, "Song"⟩]) 100) :=
  (((c8_fetch_failure_no_cache.1 emptyStore "A3" 100 (fun _ => false) (fun _ => false)
    [some "t1"] (fun tid => if tid = "t1" then some ⟨"t1", 70, "Song"⟩ else none)
    (by rfl)).2 [⟨"t1", 70, "Song"⟩] (by rfl))).1

/-! ## Claim C9 -/

theorem MAX_RETRIES_eq : MAX_RETRIES = 3 := rfl

/-- The retry loop started at any attempt: when every earlier attempt in
the window was retryable (a 429 or a generic error) and the attempt at
index att + k raises a Spotify error with a status other than 429, the
loop stops right there: the error is returned and the trace ends with
that attempt, with no sleep after it. -/
theorem callRetryAux_spec (f : Nat → CallOutcome) :
    ∀ (k att rem : Nat), k < rem → rem + att = MAX_RETRIES →
      (∀ j, j < k →
        (∃ r, f (att + j) = CallOutcome.spotifyErr 429 r) ∨
        (∃ m, f (att + j) = CallOutcome.netErr m)) →
      ∀ (status : Nat) (ra : Option Nat),
        f (att + k) = CallOutcome.spotifyErr status ra → status ≠ 429 →
        ∃ pre : List RetryEvent,
          callRetryAux f rem att =
            (.error (.spotify status),
              pre ++ [RetryEvent.wait, RetryEvent.call (att + k)]) ∧
          (pre.filter RetryEvent.isCall).length = k := by
  intro k
  induction k with
  | zero =>
    intro att rem hk hsum hprev status ra hf hs
    obtain ⟨rem2, rfl⟩ : ∃ r2, rem = r2 + 1 := ⟨rem - 1, by omega⟩
    refine ⟨[], ?_, rfl⟩
    rw [Nat.add_zero] at hf
    simp only [callRetryAux, hf, if_neg hs]
    rfl
  | succ k ih =>
    intro att rem hk hsum hprev status ra hf hs
    obtain ⟨rem2, rfl⟩ : ∃ r2, rem = r2 + 1 := ⟨rem - 1, by omega⟩
    have hnext : ∀ j, j < k →
        (∃ r, f (att + 1 + j) = CallOutcome.spotifyErr 429 r) ∨
        (∃ m, f (att + 1 + j) = CallOutcome.netErr m) := by
      intro j hj
      have h2 := hprev (j + 1) (by omega)
      rw [show att + (j + 1) = att + 1 + j by omega] at h2
      exact h2
    have hf2 : f (att + 1 + k) = CallOutcome.spotifyErr status ra := by
      rw [show att + 1 + k = att + (k + 1) by omega]
      exact hf
    obtain ⟨pre2, hrec, hlen⟩ :=
      ih (att + 1) rem2 (by omega) (by omega) hnext status ra hf2 hs
    have hidx : att + 1 + k = att + (k + 1) := by omega
    rcases hprev 0 (Nat.succ_pos k) with ⟨r, hr⟩ | ⟨m, hm⟩
    · rw [Nat.add_zero] at hr
      refine ⟨[RetryEvent.wait, RetryEvent.call att,
        RetryEvent.sleep (r.getD RETRY_DELAY)] ++ pre2, ?_, ?_⟩
      · simp only [callRetryAux, hr, if_pos rfl, hrec]
        rw [hidx] at hrec ⊢
        simp
      · simp [List.filter_append, RetryEvent.isCall, List.filter, hlen]
    · rw [Nat.add_zero] at hm
      have hattlt : att < MAX_RETRIES - 1 := by
        rw [MAX_RETRIES_eq] at hsum ⊢
        omega
      refine ⟨[RetryEvent.wait, RetryEvent.call att,
        RetryEvent.sleep (RETRY_DELAY * (att + 1))] ++ pre2, ?_, ?_⟩
      · simp only [callRetryAux, hm, if_pos hattlt, hrec]
        rw [hidx] at hrec ⊢
        simp
      · simp [List.filter_append, RetryEvent.isCall, List.filter, hlen]

/-- C9: a Spotify error whose status is not 429, raised at any attempt
the retry wrapper reaches (every earlier attempt having been retried as
a rate limit or a generic error), is propagated immediately from that
attempt: the wrapper returns that error, performs exactly k + 1 calls,
and its event trace ends with the failing call — no sleep, no backoff,
no further attempt follows it. -/
theorem c9_nonretryable_propagates :
    ∀ (f : Nat → CallOutcome) (k status : Nat) (ra : Option Nat),
      k < MAX_RETRIES →
      (∀ j, j < k →
        (∃ r, f j = CallOutcome.spotifyErr 429 r) ∨
        (∃ m, f j = CallOutcome.netErr m)) →
      f k = CallOutcome.spotifyErr status ra → status ≠ 429 →
      (call_with_retry f).1 = .error (.spotify status) ∧
      ((call_with_retry f).2.filter RetryEvent.isCall).length = k + 1 ∧
      (call_with_retry f).2.getLast? = some (.call k) := by
  intro f k status ra hk hprev hf hs
  obtain ⟨pre, heq, hlen⟩ := callRetryAux_spec f k 0 MAX_RETRIES hk (by omega)
    (by simpa using hprev) status ra (by simpa using hf) hs
  unfold call_with_retry
  rw [heq]
  refine ⟨rfl, ?_, ?_⟩
  · simp [List.filter_append, RetryEvent.isCall, List.filter, hlen]
  · rw [show pre ++ [RetryEvent.wait, RetryEvent.call (0 + k)] =
      (pre ++ [RetryEvent.wait]) ++ [RetryEvent.call (0 + k)] by simp]
    rw [List.getLast?_concat]
    simp

/-- C9 witness: the theorem applied to a call that is rate limited once
and then rejected with status 403. -/
theorem c9_witness :
    (call_with_retry
        (fun j => if j = 0 then .spotifyErr 429 none else .spotifyErr 403 none)).1 =
      .error (.spotify 403) ∧
    ((call_with_retry
        (fun j => if j = 0 then .spotifyErr 429 none else .spotifyErr 403 none)).2.filter
      RetryEvent.isCall).length = 2 ∧
    (call_with_retry
        (fun j => if j = 0 then .spotifyErr 429 none else .spotifyErr 403 none)).2.getLast? =
      some (.call 1) :=
  c9_nonretryable_propagates
    (fun j => if j = 0 then .spotifyErr 429 none else .spotifyErr 403 none) 1 403 none
    (by decide)
    (fun j hj => Or.inl ⟨none, by
      have hj0 : j = 0 := by omega
      subst hj0
      rfl⟩)
    (by rfl) (by decide)

/-! ## Claim C10 -/

/-- A cache state holding, for the album-details query of album X1, a
fresh entry whose stored text decodes to a non-empty JSON list whose
first element is a string rather than a dict with an id key. -/
def badListingStore : Store :=
  fun h =>
    if h = generate_query_hash ALBUM_DETAILS_TYPE (albumParams "X1") then
      some ("[\"bad\"]", 0)
    else none

/-- C10: on that cache state the track-listing resolver raises an
unhandled error — its invalid-cache branch calls
cache_manager.clear_specific_cache, which is not defined anywhere in
cache_manager.py — instead of discarding the bad entry, refetching from
the API and returning a listing. -/
theorem c10_invalid_cache_unhandled_error :
    get_album_track_details badListingStore "X1" 10 (fun _ => false) (fun _ => false) []
        (fun _ => none) =
      .error "AttributeError: module cache_manager has no attribute clear_specific_cache" := by
  rfl

end RymSpotify
